import Mathlib

/-!
Shallow embedding of the gesture pipeline of STRML/fappy-bird:
`src/motionDetection.js` (class `MotionDetector`) and
`src/handTracking.js` (class `HandTracker`, non-rendering core).

Machine floats of the source are modelled by exact rationals; the
ambient clock (`performance.now()`) is passed in as an explicit
time argument.
-/

namespace FappyBird

/-! ## MotionDetector (src/motionDetection.js) -/

/-- The three states of the jump state machine:
`'idle' | 'moving_up' | 'cooldown'`. -/
inductive MDState where
  | idle
  | movingUp
  | cooldown
deriving DecidableEq, Repr

/-- Mutable instance fields of `MotionDetector`.  Tuning constants
(`maxPositions`, `smoothingFactor`, ...) are never mutated in the source
and are kept as plain definitions below.  A position sample is the pair
(smoothed y, timestamp). -/
structure MotionDetector where
  positions : List (ℚ × ℚ)
  smoothedY : Option ℚ
  cooldownTimer : ℕ
  state : MDState
  upwardFrames : ℕ
  peakVelocity : ℚ
  velocityHistory : List ℚ
  currentVelocity : ℚ
  rawY : ℚ
deriving DecidableEq, Repr

/-- Constant `this.maxPositions = 10`. -/
def maxPositions : ℕ := 10

/-- Constant `this.smoothingFactor = 0.4`. -/
def smoothingFactor : ℚ := 2/5

/-- Constant `this.jumpThreshold = 10`. -/
def jumpThreshold : ℚ := 10

/-- Constant `this.cooldownFrames = 10`. -/
def cooldownFrames : ℕ := 10

/-- Constant `this.requiredUpwardFrames = 2`. -/
def requiredUpwardFrames : ℕ := 2

/-- Constant `this.maxVelocityHistory = 5`. -/
def maxVelocityHistory : ℕ := 5

/-- The normalisation constant `16.67` (ms per reference tick). -/
def referenceTickMs : ℚ := 1667/100

/-- The freshly constructed detector (constructor of `MotionDetector`). -/
def initMD : MotionDetector :=
  { positions := []
    smoothedY := none
    cooldownTimer := 0
    state := .idle
    upwardFrames := 0
    peakVelocity := 0
    velocityHistory := []
    currentVelocity := 0
    rawY := 0 }

/-- The exponential smoothing step of `addPosition`:
seed with the first sample, then
`smoothingFactor * y + (1 - smoothingFactor) * smoothedY`. -/
def smooth (prev : Option ℚ) (y : ℚ) : ℚ :=
  match prev with
  | none => y
  | some p => smoothingFactor * y + (1 - smoothingFactor) * p

/-- Method `MotionDetector.addPosition(y)` with the clock reading `t` passed
explicitly: smooth, record `rawY`, push `(smoothedY, t)` and evict the
oldest sample past `maxPositions`. -/
def addPosition (y t : ℚ) (s : MotionDetector) : MotionDetector :=
  let sm := smooth s.smoothedY y
  let l := s.positions ++ [(sm, t)]
  { s with
    smoothedY := some sm
    rawY := y
    positions := if maxPositions < l.length then l.drop 1 else l }

/-- The accumulation loop of `getVelocity` over consecutive samples of
`recent`, carrying the loop counter `i` (used as the weight):
returns `(totalVelocity, totalWeight)`. -/
def weightedSteps : List (ℚ × ℚ) → ℕ → ℚ × ℚ
  | p1 :: p2 :: rest, i =>
      let dy := p2.1 - p1.1
      let dt := p2.2 - p1.2
      let normalizedVelocity := dy / max dt 1 * referenceTickMs
      let acc := weightedSteps (p2 :: rest) (i + 1)
      (normalizedVelocity * i + acc.1, (i : ℚ) + acc.2)
  | _, _ => (0, 0)

/-- Method `MotionDetector.getVelocity()`: 0 with fewer than two samples
(without touching any field); otherwise the weighted average velocity
over the last 4 samples, also stored in `currentVelocity` and pushed
onto `velocityHistory` (cap `maxVelocityHistory`). -/
def getVelocity (s : MotionDetector) : ℚ × MotionDetector :=
  if s.positions.length < 2 then (0, s)
  else
    let recent := s.positions.drop (s.positions.length - 4)
    let acc := weightedSteps recent 1
    let avgVelocity := if 0 < acc.2 then acc.1 / acc.2 else 0
    let vh := s.velocityHistory ++ [avgVelocity]
    (avgVelocity,
      { s with
        currentVelocity := avgVelocity
        velocityHistory := if maxVelocityHistory < vh.length then vh.drop 1 else vh })

/-- Method `MotionDetector.update(y)` with the clock reading `t` passed
explicitly; `none` models `null`/`undefined`.  Returns the jump flag
and the updated detector. -/
def update (y : Option ℚ) (t : ℚ) (s : MotionDetector) : Bool × MotionDetector :=
  match y with
  | none => (false, s)
  | some y =>
    let s := addPosition y t s
    let vs := getVelocity s
    let velocity := vs.1
    let s := vs.2
    let s := if 0 < s.cooldownTimer then { s with cooldownTimer := s.cooldownTimer - 1 } else s
    match s.state with
    | .idle =>
        if velocity < -5 then
          (false, { s with state := .movingUp, upwardFrames := 1 })
        else
          (false, s)
    | .movingUp =>
        if velocity < -5 then
          let s := { s with upwardFrames := s.upwardFrames + 1 }
          if requiredUpwardFrames ≤ s.upwardFrames ∧ velocity < -jumpThreshold ∧
              s.cooldownTimer = 0 then
            (true, { s with state := .cooldown, cooldownTimer := cooldownFrames })
          else
            (false, s)
        else
          (false, { s with state := .idle, upwardFrames := 0 })
    | .cooldown =>
        if 3 < velocity then
          (false, { s with state := .idle, upwardFrames := 0 })
        else
          (false, s)

/-- Method `MotionDetector.reset()`.  Note the source resets every mutable
field except `rawY`. -/
def reset (s : MotionDetector) : MotionDetector :=
  { s with
    positions := []
    smoothedY := none
    velocityHistory := []
    peakVelocity := 0
    state := .idle
    upwardFrames := 0
    cooldownTimer := 0
    currentVelocity := 0 }

/-- Run `update` over a list of `(y, t)` ticks, collecting the returned
jump flags in order. -/
def runMD (s : MotionDetector) : List (Option ℚ × ℚ) → List Bool × MotionDetector
  | [] => ([], s)
  | (y, t) :: rest =>
      let r := update y t s
      let tail := runMD r.2 rest
      (r.1 :: tail.1, tail.2)

/-! ## HandTracker (src/handTracking.js, non-rendering core)

The rendering/camera/worker plumbing (`init`, `startCamera`,
`drawDebug`, ...) has no effect on the tracking state and is omitted;
the per-tick state transition is `processHandResult`. -/

/-- A 2-D landmark / hand centre. -/
structure Point where
  x : ℚ
  y : ℚ
deriving DecidableEq, Repr

/-- A detected hand: its `keypoints` array, where an entry may be
absent (JS `undefined`, also past the end of the array). -/
structure Hand where
  keypoints : List (Option Point)
deriving DecidableEq, Repr

/-- An entry of the tracker's `velocityHistory`:
`{ y, velocity, time }`. -/
structure VelEntry where
  y : ℚ
  velocity : ℚ
  time : ℚ
deriving DecidableEq, Repr

/-- Mutable tracking fields of `HandTracker` (constants
`historyLength`, `maxLostFrames`, `maxVelocityHistory` kept as
definitions below). -/
structure HandTracker where
  lastHand : Option Hand
  handHistories : List (List ℚ)
  activeHandIndex : ℤ
  lostFrames : ℕ
  lastValidCenter : Option Point
  lastValidHand : Option Hand
  lastHandCenter : Option Point
  velocityHistory : List VelEntry
deriving DecidableEq, Repr

/-- Constant `this.historyLength = 10`. -/
def historyLength : ℕ := 10

/-- Constant `this.maxLostFrames = 8`. -/
def maxLostFrames : ℕ := 8

/-- Constant `this.maxVelocityHistory = 5` (HandTracker's own cap). -/
def htMaxVelocityHistory : ℕ := 5

/-- The freshly constructed tracker (constructor of `HandTracker`). -/
def initHT : HandTracker :=
  { lastHand := none
    handHistories := [[], []]
    activeHandIndex := -1
    lostFrames := 0
    lastValidCenter := none
    lastValidHand := none
    lastHandCenter := none
    velocityHistory := [] }

/-- The five stable landmark indices used by `getHandCenter`:
wrist (0) and the four knuckle bases (5, 9, 13, 17). -/
def stableIndices : List ℕ := [0, 5, 9, 13, 17]

/-- Method `HandTracker.getHandCenter(hand)`: sum the coordinates of the
present stable landmarks and divide by their count; `none` when no
stable landmark is present. -/
def getHandCenter (h : Hand) : Option Point :=
  let acc := stableIndices.foldl
    (fun (acc : ℚ × ℚ × ℕ) i =>
      match h.keypoints.getD i none with
      | some p => (acc.1 + p.x, acc.2.1 + p.y, acc.2.2 + 1)
      | none => acc)
    (0, 0, 0)
  if 0 < acc.2.2 then some ⟨acc.1 / acc.2.2, acc.2.1 / acc.2.2⟩ else none

/-- Push `yv` onto a slot history, evicting the oldest entry past
`historyLength` (the push/shift pattern of `updateHandHistories`). -/
def pushHist (hist : List ℚ) (yv : ℚ) : List ℚ :=
  let l := hist ++ [yv]
  if historyLength < l.length then l.drop 1 else l

/-- Method `HandTracker.updateHandHistories(positions)`: the first loop pushes
the y of each resolvable centre for slots `i < positions.length`
(`i < 2`), leaving a slot with an unresolvable centre untouched; the
second loop clears every slot `i ≥ positions.length`. -/
def updateHandHistories (positions : List (Option Point)) (s : HandTracker) : HandTracker :=
  let slot (i : ℕ) : List ℚ :=
    if i < positions.length then
      match positions.getD i none with
      | some p => pushHist (s.handHistories.getD i []) p.y
      | none => s.handHistories.getD i []
    else []
  { s with handHistories := [slot 0, slot 1] }

/-- The per-slot motion score of `selectActiveHand`: 0 with fewer than
3 history samples, else the variance of the most recent 5. -/
def motionScore (history : List ℚ) : ℚ :=
  if history.length < 3 then 0
  else
    let recent := history.drop (history.length - 5)
    let mean := recent.sum / recent.length
    ((recent.map fun b => (b - mean) ^ 2).sum) / recent.length

/-- Array lookup at a signed index (JS `a[i]` is `undefined` for a
negative or out-of-range index). -/
def getI {α : Type} (l : List α) (i : ℤ) : Option α :=
  if 0 ≤ i then l.get? i.toNat else none

/-- Method `HandTracker.selectActiveHand(hands, positions)`: a single hand is
returned as-is; with several hands, compare slot motion scores and move
`activeHandIndex` only past the 1.5× hysteresis (or unconditionally
from `-1`), then clamp the index to the hands present.  Always returns
an object `(hand, center)` (whose fields are `undefined` only when
`hands` is empty, which the caller rules out) plus the updated
tracker. -/
def selectActiveHand (hands : List Hand) (positions : List (Option Point))
    (s : HandTracker) : (Option Hand × Option Point) × HandTracker :=
  if hands.length = 1 then
    ((hands.get? 0, positions.getD 0 none), s)
  else
    let motions := s.handHistories.map motionScore
    let m0 := motions.getD 0 0
    let m1 := motions.getD 1 0
    let activeIndex : ℕ := if m1 ≤ m0 then 0 else 1
    let newIndex : ℤ :=
      if s.activeHandIndex = -1 ∨
          motions.getD (1 - activeIndex) 0 * (3/2) < motions.getD activeIndex 0 then
        activeIndex
      else s.activeHandIndex
    let idx : ℤ := min newIndex ((hands.length : ℤ) - 1)
    ((getI hands idx, (getI positions idx).getD none),
      { s with activeHandIndex := newIndex })

/-- Method `HandTracker.trackVelocity(center)` with the clock reading `t`
passed explicitly: append `{y, velocity, time}` (velocity against the
previous entry, 0 for the first), evicting past the cap; `none`
centres are ignored. -/
def trackVelocity (center : Option Point) (t : ℚ) (vh : List VelEntry) : List VelEntry :=
  match center with
  | none => vh
  | some c =>
    let l :=
      match vh.getLast? with
      | some last => vh ++ [⟨c.y, last.y - c.y, t⟩]
      | none => vh ++ [⟨c.y, 0, t⟩]
    if htMaxVelocityHistory < l.length then l.drop 1 else l

/-- Method `HandTracker.processHandResult(hands)` with the clock reading `t`
passed explicitly: the persistence branch for an empty detection list,
otherwise reset `lostFrames`, update histories, select the active hand
and persist it (`selectActiveHand` always returns a truthy object, so
the source's `return hands[0]` fallback is unreachable).  Returns the
reported hand and the updated tracker. -/
def processHandResult (hands : List Hand) (t : ℚ) (s : HandTracker) :
    Option Hand × HandTracker :=
  if hands.isEmpty then
    let s := { s with lostFrames := s.lostFrames + 1 }
    if s.lostFrames ≤ maxLostFrames ∧ s.lastValidHand.isSome then
      (s.lastValidHand,
        { s with lastHand := s.lastValidHand, lastHandCenter := s.lastValidCenter })
    else
      (none, { s with lastHand := none, lastHandCenter := none })
  else
    let s := { s with lostFrames := 0 }
    let handPositions := hands.map getHandCenter
    let s := updateHandHistories handPositions s
    let r := selectActiveHand hands handPositions s
    let s := r.2
    (r.1.1,
      { s with
        lastHand := r.1.1
        lastHandCenter := r.1.2
        lastValidHand := r.1.1
        lastValidCenter := r.1.2
        velocityHistory := trackVelocity r.1.2 t s.velocityHistory })

/-- Run `processHandResult` over a list of `(hands, t)` ticks,
collecting the reported hands in order. -/
def runHT (s : HandTracker) : List (List Hand × ℚ) → List (Option Hand) × HandTracker
  | [] => ([], s)
  | (hs, t) :: rest =>
      let r := processHandResult hs t s
      let tail := runHT r.2 rest
      (r.1 :: tail.1, tail.2)

/-- The detector after the smoothing, velocity and cooldown-decrement
steps of `update` (lines before the state switch), used to reason
about the switch. -/
def preStep (y t : ℚ) (s : MotionDetector) : MotionDetector :=
  let vs := getVelocity (addPosition y t s)
  if 0 < vs.2.cooldownTimer then
    { vs.2 with cooldownTimer := vs.2.cooldownTimer - 1 }
  else vs.2

/-- The state switch of `update` (the `switch (this.state)` block),
applied to the pre-stepped detector and the computed velocity. -/
def stateSwitch (velocity : ℚ) (s : MotionDetector) : Bool × MotionDetector :=
  match s.state with
  | .idle =>
      if velocity < -5 then
        (false, { s with state := .movingUp, upwardFrames := 1 })
      else (false, s)
  | .movingUp =>
      if velocity < -5 then
        let s := { s with upwardFrames := s.upwardFrames + 1 }
        if requiredUpwardFrames ≤ s.upwardFrames ∧ velocity < -jumpThreshold ∧
            s.cooldownTimer = 0 then
          (true, { s with state := .cooldown, cooldownTimer := cooldownFrames })
        else (false, s)
      else (false, { s with state := .idle, upwardFrames := 0 })
  | .cooldown =>
      if 3 < velocity then
        (false, { s with state := .idle, upwardFrames := 0 })
      else (false, s)

/-! ## Run predicates used by the temporal claims -/

/-- Whether the tick `(y, t)` taken from state `s` is a cooldown exit:
a non-null sample whose computed velocity exceeds the small positive
threshold `3` (the hand moving back down). -/
def tickExit (y : Option ℚ) (t : ℚ) (s : MotionDetector) : Bool :=
  match y with
  | none => false
  | some yv => decide (3 < (getVelocity (addPosition yv t s)).1)

/-- Predicate `noExitRun s l` holds when no tick of the run of `l` from `s` is a
cooldown exit. -/
def noExitRun : MotionDetector → List (Option ℚ × ℚ) → Bool
  | _, [] => true
  | s, (y, t) :: rest => !(tickExit y t s) && noExitRun (update y t s).2 rest

/-! ## Operation sequences (reachable states) -/

/-- The operations a caller can perform on a `MotionDetector`. -/
inductive MDOp where
  | upd (y : Option ℚ) (t : ℚ)
  | doReset
  | addPos (y t : ℚ)
  | getVel
deriving Repr

/-- Apply one operation to a detector. -/
def applyMDOp (op : MDOp) (s : MotionDetector) : MotionDetector :=
  match op with
  | .upd y t => (update y t s).2
  | .doReset => reset s
  | .addPos y t => addPosition y t s
  | .getVel => (getVelocity s).2

/-- The detector state reached from a fresh instance by a sequence of
operations. -/
def runMDOps (ops : List MDOp) : MotionDetector :=
  ops.foldl (fun s op => applyMDOp op s) initMD

/-- The tracker state reached from a fresh instance by a sequence of
`processHandResult` ticks. -/
def runHTOps (ops : List (List Hand × ℚ)) : HandTracker :=
  ops.foldl (fun s op => (processHandResult op.1 op.2 s).2) initHT

/-! ## Spec-side definition for the refinement claim about
`getHandCenter` -/

/-- Modelled from the spec's words: the stable landmarks actually
present in the input, in index order. -/
def stablePoints (h : Hand) : List Point :=
  stableIndices.filterMap fun i => h.keypoints.getD i none

/-! ## Concrete inputs used by witnesses and counterexamples -/

/-- The five ticks of the spec's concrete Motion Detector scenario:
y = 200, 170, 140, 100, 60 at exactly 16.67 ms intervals. -/
def c2ticks : List (Option ℚ × ℚ) :=
  [(some 200, 0), (some 170, 1667/100), (some 140, 3334/100),
   (some 100, 5001/100), (some 60, 6668/100)]

/-- The detector after the first two ticks of that scenario. -/
def mdAfterTwo : MotionDetector :=
  (runMD initMD [(some 200, 0), (some 170, 1667/100)]).2

/-- A hand whose only landmark is the wrist at (100, 150). -/
def H1 : Hand := ⟨[some ⟨100, 150⟩]⟩

/-- A hand whose only landmark is the wrist at (200, 250). -/
def H2 : Hand := ⟨[some ⟨200, 250⟩]⟩

/-- A hand with stable landmarks at indices 0 and 5. -/
def Hw : Hand := ⟨[some ⟨1, 2⟩, none, none, none, none, some ⟨3, 6⟩]⟩

/-- A slot history of variance 10 (mean 10, deviations 4, -4, 2, -2). -/
def histVar10 : List ℚ := [14, 6, 12, 8]

/-- A slot history of variance 14 (mean 10, deviations 4, 2, 0, -6). -/
def histVar14 : List ℚ := [14, 12, 10, 4]

/-- A slot history of variance 16 (mean 10, deviations 4, -4, 4, -4). -/
def histVar16 : List ℚ := [14, 6, 14, 6]

/-- The tracker after one successful detection of `H1`. -/
def htAfterH1 : HandTracker := (processHandResult [H1] 0 initHT).2

/-- A tracker with slot variances 10 and 14 and slot 0 active. -/
def htA : HandTracker :=
  { initHT with handHistories := [histVar10, histVar14], activeHandIndex := 0 }

/-- A tracker with slot variances 10 and 16 and slot 0 active. -/
def htB : HandTracker :=
  { initHT with handHistories := [histVar10, histVar16], activeHandIndex := 0 }

/-- A tracker with slot variances 10 and 16 and no active hand yet. -/
def htC : HandTracker :=
  { initHT with handHistories := [histVar10, histVar16], activeHandIndex := -1 }

/-- A detector whose position history is at its cap of 10. -/
def mdFull : MotionDetector :=
  { initMD with
    positions := [(1, 1), (2, 2), (3, 3), (4, 4), (5, 5),
                  (6, 6), (7, 7), (8, 8), (9, 9), (10, 10)] }

/-- A detector whose velocity history is at its cap of 5. -/
def mdVh5 : MotionDetector :=
  { initMD with velocityHistory := [1, 2, 3, 4, 5], positions := [(0, 0), (1, 1)] }

/-! ## Helper lemmas on field preservation -/

theorem addPosition_state (y t : ℚ) (s : MotionDetector) :
    (addPosition y t s).state = s.state := rfl

theorem addPosition_cooldownTimer (y t : ℚ) (s : MotionDetector) :
    (addPosition y t s).cooldownTimer = s.cooldownTimer := rfl

theorem getVelocity_state (s : MotionDetector) :
    (getVelocity s).2.state = s.state := by
  unfold getVelocity; split <;> rfl

theorem getVelocity_cooldownTimer (s : MotionDetector) :
    (getVelocity s).2.cooldownTimer = s.cooldownTimer := by
  unfold getVelocity; split <;> rfl

/-! ## Claim theorems -/

/-- C3: for every MotionDetector state, `update` on a null sample
returns false and leaves the whole state (smoothing, state machine,
histories, cooldown, upward-frame count) unchanged. -/
theorem C3_update_none_frozen (s : MotionDetector) (t : ℚ) :
    update none t s = (false, s) := rfl

/-- C5 counterexample: feeding one sample `y = 5` to a fresh detector
and then calling `reset` does not return it to the freshly constructed
state, because `reset` leaves the debug field `rawY` at its last
value. -/
theorem C5_cex_reset_not_fresh :
    reset ((update (some 5) 0 initMD).2) ≠ initMD := by
  intro h
  have h2 := congrArg MotionDetector.rawY h
  norm_num [update, addPosition, getVelocity, smooth, reset, initMD,
    maxPositions, smoothingFactor] at h2

/-- C5 amended: after any sequence of calls, `reset()` restores every
field to its constructor-initial value except the debug field `rawY`,
which keeps the last raw sample. -/
theorem C5_reset_fresh_except_rawY (s : MotionDetector) :
    reset s = { initMD with rawY := s.rawY } := rfl

/-- C2 counterexample: with the code's default thresholds
(smoothing 0.4, threshold 10, required upward frames 2) and samples
y = 200, 170, 140, 100, 60 at exactly 16.67 ms intervals, the update
sequence is not `[false, false, false, true, false]` — the jump does
not fire on the fourth call. -/
theorem C2_cex_not_fourth_call :
    (runMD initMD c2ticks).1 ≠ [false, false, false, true, false] := by
  norm_num [runMD, update, addPosition, getVelocity, weightedSteps, smooth, initMD, c2ticks,
    maxPositions, smoothingFactor, jumpThreshold, cooldownFrames, requiredUpwardFrames,
    maxVelocityHistory, referenceTickMs, max_def]

/-- C2 amended: on that scenario the jump fires on the third call
(once two consecutive upward frames have been confirmed), and both the
fourth call (y = 100) and the fifth call (y = 60) within the cooldown
window return false: the sequence is `[false, false, true, false,
false]`. -/
theorem C2_jump_sequence :
    (runMD initMD c2ticks).1 = [false, false, true, false, false] := by
  norm_num [runMD, update, addPosition, getVelocity, weightedSteps, smooth, initMD, c2ticks,
    maxPositions, smoothingFactor, jumpThreshold, cooldownFrames, requiredUpwardFrames,
    maxVelocityHistory, referenceTickMs, max_def]

/-- The accumulator of `getHandCenter`'s fold equals the coordinate
sums and the count of the landmarks kept by `filterMap`. -/
theorem center_foldl (h : Hand) (l : List ℕ) (a b : ℚ) (c : ℕ) :
    l.foldl (fun (acc : ℚ × ℚ × ℕ) i =>
      match h.keypoints.getD i none with
      | some p => (acc.1 + p.x, acc.2.1 + p.y, acc.2.2 + 1)
      | none => acc) (a, b, c) =
    (a + (((l.filterMap fun i => h.keypoints.getD i none).map Point.x).sum),
     b + (((l.filterMap fun i => h.keypoints.getD i none).map Point.y).sum),
     c + (l.filterMap fun i => h.keypoints.getD i none).length) := by
  induction l generalizing a b c with
  | nil => simp
  | cons i tl ih =>
    rw [List.foldl_cons, List.filterMap_cons]
    cases hg : h.keypoints.getD i none with
    | none =>
      simp only [hg]
      exact ih a b c
    | some p =>
      simp only [hg]
      rw [ih]
      simp only [List.map_cons, List.sum_cons, List.length_cons, Prod.mk.injEq]
      refine ⟨by ring, by ring, by omega⟩

/-- C8: `getHandCenter` returns none exactly when none of the five
stable landmarks is present, and otherwise returns the arithmetic mean
of the coordinates of whichever of them are present. -/
theorem C8_hand_center_mean (h : Hand) :
    (getHandCenter h = none ↔ stablePoints h = []) ∧
    (stablePoints h ≠ [] →
      getHandCenter h =
        some ⟨((stablePoints h).map Point.x).sum / ((stablePoints h).length : ℚ),
              ((stablePoints h).map Point.y).sum / ((stablePoints h).length : ℚ)⟩) := by
  have key := center_foldl h stableIndices 0 0 0
  simp only [getHandCenter, stablePoints]
  rw [key]
  simp only [zero_add]
  constructor
  · constructor
    · intro h0
      by_contra hne
      rw [if_pos (List.length_pos.mpr hne)] at h0
      exact Option.some_ne_none _ h0
    · intro he
      rw [if_neg]
      rw [he]
      simp
  · intro hne
    rw [if_pos (List.length_pos.mpr hne)]

/-- C8 witness: on a hand with stable landmarks only at indices 0 and
5, `getHandCenter` is the mean of those two landmarks. -/
theorem C8_witness :
    stablePoints Hw ≠ [] ∧
    getHandCenter Hw =
      some ⟨((stablePoints Hw).map Point.x).sum / ((stablePoints Hw).length : ℚ),
            ((stablePoints Hw).map Point.y).sum / ((stablePoints Hw).length : ℚ)⟩ :=
  ⟨by decide, (C8_hand_center_mean Hw).2 (by decide)⟩

/-- C6 counterexample: after slot 0's history holds [150], a tick
whose positions list has a present entry with an unresolvable centre
(`none`) leaves slot 0's history frozen at [150] instead of clearing
it to empty. -/
theorem C6_cex_unresolved_slot_frozen :
    (updateHandHistories [none]
        (updateHandHistories [some ⟨100, 150⟩, some ⟨200, 250⟩] initHT)).handHistories.getD 0 []
      ≠ [] := by
  decide

/-- C6 amended: `updateHandHistories` appends each resolvable slot's y
with cap 10 and FIFO eviction, clears exactly the slots with no entry
in the positions list (index at or beyond its length), and leaves a
slot whose entry is present but unresolvable frozen at its old
contents. -/
theorem C6_histories (positions : List (Option Point)) (s : HandTracker) (i : ℕ) :
    (updateHandHistories positions s).handHistories.length = 2 ∧
    (i < 2 → positions.length ≤ i →
      (updateHandHistories positions s).handHistories.getD i [] = []) ∧
    (∀ p : Point, i < 2 → i < positions.length → positions.getD i none = some p →
      (updateHandHistories positions s).handHistories.getD i [] =
        pushHist (s.handHistories.getD i []) p.y) ∧
    (i < 2 → i < positions.length → positions.getD i none = none →
      (updateHandHistories positions s).handHistories.getD i [] =
        s.handHistories.getD i []) ∧
    (∀ (hist : List ℚ) (yv : ℚ),
      (hist.length < historyLength → pushHist hist yv = hist ++ [yv]) ∧
      (hist.length = historyLength → pushHist hist yv = hist.drop 1 ++ [yv]) ∧
      (hist.length ≤ historyLength → (pushHist hist yv).length ≤ historyLength)) := by
  refine ⟨rfl, ?_, ?_, ?_, ?_⟩
  · intro hi hlen
    interval_cases i
    · simp only [updateHandHistories, List.getD_cons_zero]
      rw [if_neg (Nat.not_lt.mpr hlen)]
    · simp only [updateHandHistories, List.getD_cons_succ, List.getD_cons_zero]
      rw [if_neg (Nat.not_lt.mpr hlen)]
  · intro p hi hlen hp
    interval_cases i
    · simp only [updateHandHistories, List.getD_cons_zero]
      rw [if_pos hlen, hp]
    · simp only [updateHandHistories, List.getD_cons_succ, List.getD_cons_zero]
      rw [if_pos hlen, hp]
  · intro hi hlen hp
    interval_cases i
    · simp only [updateHandHistories, List.getD_cons_zero]
      rw [if_pos hlen, hp]
    · simp only [updateHandHistories, List.getD_cons_succ, List.getD_cons_zero]
      rw [if_pos hlen, hp]
  · intro hist yv
    refine ⟨?_, ?_, ?_⟩
    · intro hlt
      simp only [pushHist]
      rw [if_neg]
      simp only [List.length_append, List.length_singleton]
      simp only [historyLength] at hlt ⊢
      omega
    · intro heq
      have hc : historyLength < (hist ++ [yv]).length := by
        simp only [List.length_append, List.length_singleton, heq]
        exact Nat.lt_succ_self _
      simp only [pushHist]
      rw [if_pos hc, List.drop_append_of_le_length]
      rw [heq]
      simp [historyLength]
    · intro hle
      by_cases hc : historyLength < (hist ++ [yv]).length
      · simp only [pushHist]
        rw [if_pos hc]
        simp only [List.length_drop, List.length_append, List.length_singleton]
        omega
      · simp only [pushHist]
        rw [if_neg hc]
        exact Nat.not_lt.mp hc

/-- C6 witness: the spec's scenario — the first call populates slot 0
with [150]; a later call whose list has only one (unresolvable) entry
clears slot 1 and leaves slot 0 alone. -/
theorem C6_witness :
    (updateHandHistories [some ⟨100, 150⟩, some ⟨200, 250⟩] initHT).handHistories.getD 0 [] =
      pushHist (initHT.handHistories.getD 0 []) 150 ∧
    (updateHandHistories [some ⟨100, 150⟩] initHT).handHistories.getD 1 [] = [] :=
  ⟨(C6_histories [some ⟨100, 150⟩, some ⟨200, 250⟩] initHT 0).2.2.1 ⟨100, 150⟩
      (by decide) (by decide) (by decide),
   (C6_histories [some ⟨100, 150⟩] initHT 1).2.1 (by decide) (by decide)⟩

/-- C7: with two hands present, an active slot with variance 10 keeps
the selection against a challenger of variance 14 (ratio below the
1.5× hysteresis), loses it to a challenger of variance 16, and with no
active slot chosen yet the higher-variance slot is adopted
unconditionally. -/
theorem C7_hysteresis :
    (∀ (s : HandTracker) (hands : List Hand) (positions : List (Option Point)) (A B : List ℚ),
      s.handHistories = [A, B] → s.activeHandIndex = 0 → hands.length = 2 →
      motionScore A = 10 → motionScore B = 14 →
      (selectActiveHand hands positions s).2.activeHandIndex = 0 ∧
      (selectActiveHand hands positions s).1.1 = hands.get? 0) ∧
    (∀ (s : HandTracker) (hands : List Hand) (positions : List (Option Point)) (A B : List ℚ),
      s.handHistories = [A, B] → s.activeHandIndex = 0 → hands.length = 2 →
      motionScore A = 10 → motionScore B = 16 →
      (selectActiveHand hands positions s).2.activeHandIndex = 1 ∧
      (selectActiveHand hands positions s).1.1 = hands.get? 1) ∧
    (∀ (s : HandTracker) (hands : List Hand) (positions : List (Option Point)) (A B : List ℚ),
      s.handHistories = [A, B] → s.activeHandIndex = -1 → hands.length = 2 →
      (motionScore B ≤ motionScore A →
        (selectActiveHand hands positions s).2.activeHandIndex = 0) ∧
      (motionScore A < motionScore B →
        (selectActiveHand hands positions s).2.activeHandIndex = 1)) := by
  refine ⟨?_, ?_, ?_⟩
  · intro s hands positions A B hh hidx hlen hA hB
    simp only [selectActiveHand, hh, hidx, hlen]
    simp only [List.map_cons, List.map_nil, hA, hB]
    norm_num [getI]
  · intro s hands positions A B hh hidx hlen hA hB
    simp only [selectActiveHand, hh, hidx, hlen]
    simp only [List.map_cons, List.map_nil, hA, hB]
    norm_num [getI]
  · intro s hands positions A B hh hidx hlen
    constructor
    · intro hBA
      simp only [selectActiveHand, hh, hidx, hlen]
      simp only [List.map_cons, List.map_nil]
      norm_num [hBA]
    · intro hAB
      simp only [selectActiveHand, hh, hidx, hlen]
      simp only [List.map_cons, List.map_nil]
      norm_num [not_le.mpr hAB]

/-- Unfolding: `update` on a non-null sample is the state switch applied after
`preStep`. -/
theorem update_some_eq (y t : ℚ) (s : MotionDetector) :
    update (some y) t s =
      stateSwitch (getVelocity (addPosition y t s)).1 (preStep y t s) := rfl

theorem preStep_state (y t : ℚ) (s : MotionDetector) :
    (preStep y t s).state = s.state := by
  simp only [preStep]
  split <;> simp [getVelocity_state, addPosition_state]

theorem preStep_cooldownTimer (y t : ℚ) (s : MotionDetector) :
    (preStep y t s).cooldownTimer = s.cooldownTimer - 1 := by
  have h : (getVelocity (addPosition y t s)).2.cooldownTimer = s.cooldownTimer := by
    rw [getVelocity_cooldownTimer, addPosition_cooldownTimer]
  simp only [preStep]
  split
  · exact congrArg (fun n => n - 1) h
  · rename_i hc
    rw [h] at hc ⊢
    omega

/-- A true return of the state switch leaves the detector in
`cooldown` with a freshly armed timer and requires the (already
decremented) timer to be 0 at the check. -/
theorem stateSwitch_true (v : ℚ) (d : MotionDetector)
    (h : (stateSwitch v d).1 = true) :
    (stateSwitch v d).2.state = .cooldown ∧
    (stateSwitch v d).2.cooldownTimer = cooldownFrames ∧
    d.cooldownTimer = 0 := by
  obtain ⟨pos, sm, ct, st, uf, pv, vh, cv, ry⟩ := d
  cases st <;> simp only [stateSwitch] at h ⊢
  · split at h <;> simp at h
  · split at h
    · split at h
      · rename_i hif hcond
        rw [if_pos hif, if_pos hcond]
        exact ⟨rfl, rfl, hcond.2.2⟩
      · simp at h
    · simp at h
  · split at h <;> simp at h

/-- The state switch never lowers the cooldown timer. -/
theorem stateSwitch_timer_mono (v : ℚ) (d : MotionDetector) :
    d.cooldownTimer ≤ (stateSwitch v d).2.cooldownTimer := by
  obtain ⟨pos, sm, ct, st, uf, pv, vh, cv, ry⟩ := d
  cases st <;> simp only [stateSwitch]
  · split <;> simp
  · split
    · split
      · rename_i hcond
        have h0 : ct = 0 := hcond.2.2
        simp [h0]
      · simp
    · simp
  · split <;> simp

/-- In the cooldown state, a switch on a velocity at most 3 returns
false and keeps the state. -/
theorem stateSwitch_cooldown_stay (v : ℚ) (d : MotionDetector)
    (hst : d.state = .cooldown) (hv : ¬ 3 < v) :
    stateSwitch v d = (false, d) := by
  obtain ⟨pos, sm, ct, st, uf, pv, vh, cv, ry⟩ := d
  simp only at hst
  subst hst
  simp only [stateSwitch]
  rw [if_neg hv]

/-- A true return of `update` leaves the detector in `cooldown` with a
freshly armed timer, and requires the incoming timer to have been at
most 1 (0 after the start-of-call decrement). -/
theorem update_true_post (y t : ℚ) (s : MotionDetector)
    (h : (update (some y) t s).1 = true) :
    (update (some y) t s).2.state = .cooldown ∧
    (update (some y) t s).2.cooldownTimer = cooldownFrames ∧
    s.cooldownTimer ≤ 1 := by
  rw [update_some_eq] at h ⊢
  have hsw := stateSwitch_true _ _ h
  refine ⟨hsw.1, hsw.2.1, ?_⟩
  have h0 := hsw.2.2
  rw [preStep_cooldownTimer] at h0
  omega

/-- A non-null `update` call decrements the cooldown timer by at most
one. -/
theorem update_timer_lb (y t : ℚ) (s : MotionDetector) :
    s.cooldownTimer - 1 ≤ (update (some y) t s).2.cooldownTimer := by
  rw [update_some_eq]
  calc s.cooldownTimer - 1 = (preStep y t s).cooldownTimer := (preStep_cooldownTimer y t s).symm
    _ ≤ _ := stateSwitch_timer_mono _ _

/-- In the cooldown state, a tick that is not a cooldown exit returns
false and stays in cooldown. -/
theorem update_cooldown_case (y t : ℚ) (s : MotionDetector)
    (hst : s.state = .cooldown)
    (hv : ¬ 3 < (getVelocity (addPosition y t s)).1) :
    (update (some y) t s).1 = false ∧ (update (some y) t s).2.state = .cooldown := by
  have h1 : (preStep y t s).state = .cooldown := by rw [preStep_state, hst]
  rw [update_some_eq, stateSwitch_cooldown_stay _ _ h1 hv]
  exact ⟨rfl, h1⟩

/-- Starting in the cooldown state, a run with no cooldown exit
returns false on every tick. -/
theorem run_cooldown_all_false : ∀ (l : List (Option ℚ × ℚ)) (s : MotionDetector),
    s.state = .cooldown → noExitRun s l = true →
    (runMD s l).1 = List.replicate l.length false := by
  intro l
  induction l with
  | nil => intro s _ _; rfl
  | cons p rest ih =>
    intro s hst hne
    obtain ⟨y, t⟩ := p
    rw [noExitRun, Bool.and_eq_true, Bool.not_eq_true'] at hne
    obtain ⟨hex, hrest⟩ := hne
    cases y with
    | none =>
      simp only [runMD, update, List.length_cons, List.replicate_succ]
      exact congrArg (false :: ·) (ih s hst hrest)
    | some yv =>
      have hv : ¬ 3 < (getVelocity (addPosition yv t s)).1 := by
        simpa [tickExit] using hex
      have hc := update_cooldown_case yv t s hst hv
      simp only [runMD, List.length_cons, List.replicate_succ, hc.1]
      exact congrArg (false :: ·) (ih _ hc.2 hrest)

/-- C1: once `update` has returned true, every subsequent call returns
false as long as no tick is a cooldown exit (computed velocity above
the small positive threshold 3), regardless of continued upward
motion. -/
theorem C1_once_per_episode (s : MotionDetector) (y : Option ℚ) (t : ℚ)
    (l : List (Option ℚ × ℚ)) (hj : (update y t s).1 = true)
    (hne : noExitRun (update y t s).2 l = true) :
    (runMD (update y t s).2 l).1 = List.replicate l.length false := by
  cases y with
  | none => simp [update] at hj
  | some yv =>
    exact run_cooldown_all_false l _ (update_true_post yv t s hj).1 hne

/-- C1 witness: the jump fired by the third sample of the concrete
scenario is followed by false on a further upward sample and on a null
sample, neither being a cooldown exit. -/
theorem C1_witness :
    (runMD (update (some 140) (3334/100) mdAfterTwo).2
        [(some 100, 5001/100), (none, 6668/100)]).1 = List.replicate 2 false :=
  C1_once_per_episode mdAfterTwo (some 140) (3334/100)
    [(some 100, 5001/100), (none, 6668/100)]
    (by norm_num [mdAfterTwo, runMD, update, addPosition, getVelocity, weightedSteps, smooth,
      initMD, maxPositions, smoothingFactor, jumpThreshold, cooldownFrames,
      requiredUpwardFrames, maxVelocityHistory, referenceTickMs, max_def])
    (by norm_num [mdAfterTwo, runMD, update, addPosition, getVelocity, weightedSteps, smooth,
      initMD, maxPositions, smoothingFactor, jumpThreshold, cooldownFrames,
      requiredUpwardFrames, maxVelocityHistory, referenceTickMs, max_def,
      noExitRun, tickExit])

/-- With more remaining cooldown ticks than inputs, a run of non-null
samples returns false on every tick. -/
theorem run_nonnull_gate : ∀ (l : List (ℚ × ℚ)) (s : MotionDetector),
    l.length < s.cooldownTimer →
    (runMD s (l.map fun p => (some p.1, p.2))).1 = List.replicate l.length false := by
  intro l
  induction l with
  | nil => intro s _; rfl
  | cons p rest ih =>
    intro s hlen
    obtain ⟨yv, t⟩ := p
    rw [List.length_cons] at hlen
    have hf : (update (some yv) t s).1 = false := by
      by_contra hb
      have h1 : (update (some yv) t s).1 = true := by
        simpa using hb
      have := (update_true_post yv t s h1).2.2
      omega
    simp only [List.map_cons, runMD, List.length_cons, List.replicate_succ, hf]
    refine congrArg (false :: ·) (ih _ ?_)
    have hlb := update_timer_lb yv t s
    omega

/-- C10: `update` can return true only when the cooldown timer is 0 at
the trigger check (incoming timer at most 1), so after a jump arms the
10-frame cooldown the next 9 non-null calls all return false even if
the cooldown state is exited sooner. -/
theorem C10_cooldown_gates_jump :
    (∀ (s : MotionDetector) (y t : ℚ),
      (update (some y) t s).1 = true → s.cooldownTimer ≤ 1) ∧
    (∀ (s : MotionDetector) (y t : ℚ) (l : List (ℚ × ℚ)),
      (update (some y) t s).1 = true → l.length ≤ 9 →
      (runMD (update (some y) t s).2 (l.map fun p => (some p.1, p.2))).1 =
        List.replicate l.length false) := by
  constructor
  · intro s y t h
    exact (update_true_post y t s h).2.2
  · intro s y t l h hlen
    apply run_nonnull_gate
    rw [(update_true_post y t s h).2.1]
    simp only [cooldownFrames]
    omega

/-- C10 witness: the incoming cooldown timer at the concrete jump is
at most 1, and the two non-null calls following the jump both return
false. -/
theorem C10_witness :
    mdAfterTwo.cooldownTimer ≤ 1 ∧
    (runMD (update (some 140) (3334/100) mdAfterTwo).2
        (([((100 : ℚ), (5001/100 : ℚ)), (60, 6668/100)]).map fun p => (some p.1, p.2))).1 =
      List.replicate 2 false :=
  ⟨C10_cooldown_gates_jump.1 mdAfterTwo 140 (3334/100)
      (by norm_num [mdAfterTwo, runMD, update, addPosition, getVelocity, weightedSteps, smooth,
        initMD, maxPositions, smoothingFactor, jumpThreshold, cooldownFrames,
        requiredUpwardFrames, maxVelocityHistory, referenceTickMs, max_def]),
   C10_cooldown_gates_jump.2 mdAfterTwo 140 (3334/100) [(100, 5001/100), (60, 6668/100)]
      (by norm_num [mdAfterTwo, runMD, update, addPosition, getVelocity, weightedSteps, smooth,
        initMD, maxPositions, smoothingFactor, jumpThreshold, cooldownFrames,
        requiredUpwardFrames, maxVelocityHistory, referenceTickMs, max_def])
      (by norm_num)⟩

/-- C7 witness: the hysteresis behaviour at concrete states whose slot
histories have variances exactly 10, 14 and 16. -/
theorem C7_witness :
    (selectActiveHand [H1, H2] [] htA).2.activeHandIndex = 0 ∧
    (selectActiveHand [H1, H2] [] htB).2.activeHandIndex = 1 ∧
    (selectActiveHand [H1, H2] [] htC).2.activeHandIndex = 1 :=
  ⟨(C7_hysteresis.1 htA [H1, H2] [] histVar10 histVar14 rfl rfl rfl
      (by norm_num [motionScore, histVar10]) (by norm_num [motionScore, histVar14])).1,
   (C7_hysteresis.2.1 htB [H1, H2] [] histVar10 histVar16 rfl rfl rfl
      (by norm_num [motionScore, histVar10]) (by norm_num [motionScore, histVar16])).1,
   (C7_hysteresis.2.2 htC [H1, H2] [] histVar10 histVar16 rfl rfl rfl).2
      (by norm_num [motionScore, histVar10, histVar16])⟩

/-! ## HandTracker persistence lemmas (C4) -/

/-- The empty-detection branch never touches the persisted
`lastValidHand`/`lastValidCenter`. -/
theorem emptyTick_keeps_valid (t : ℚ) (s : HandTracker) :
    (processHandResult [] t s).2.lastValidHand = s.lastValidHand ∧
    (processHandResult [] t s).2.lastValidCenter = s.lastValidCenter := by
  simp only [processHandResult, List.isEmpty_nil, if_true]
  split <;> exact ⟨rfl, rfl⟩

/-- A run of empty-detection ticks never touches the persisted
`lastValidHand`/`lastValidCenter`. -/
theorem emptyRun_keeps_valid : ∀ (k : ℕ) (s : HandTracker),
    (runHT s (List.replicate k ([], 0))).2.lastValidHand = s.lastValidHand ∧
    (runHT s (List.replicate k ([], 0))).2.lastValidCenter = s.lastValidCenter := by
  intro k
  induction k with
  | zero => intro s; exact ⟨rfl, rfl⟩
  | succ n ih =>
    intro s
    rw [List.replicate_succ]
    simp only [runHT]
    refine ⟨?_, ?_⟩
    · rw [(ih _).1, (emptyTick_keeps_valid 0 s).1]
    · rw [(ih _).2, (emptyTick_keeps_valid 0 s).2]

/-- An empty-detection tick within the persistence window returns the
persisted hand and only bumps `lostFrames`. -/
theorem emptyTick_within (t : ℚ) (s : HandTracker) (h : Hand)
    (hvalid : s.lastValidHand = some h) (hwin : s.lostFrames + 1 ≤ maxLostFrames) :
    processHandResult [] t s =
      (some h, { s with lostFrames := s.lostFrames + 1,
                        lastHand := some h, lastHandCenter := s.lastValidCenter }) := by
  simp only [processHandResult, List.isEmpty_nil, if_true]
  rw [if_pos ⟨hwin, by rw [hvalid]; rfl⟩]
  rw [hvalid]

/-- An empty-detection tick past the persistence window returns none
and clears only the non-persisted hand fields. -/
theorem emptyTick_expired (t : ℚ) (s : HandTracker)
    (hwin : maxLostFrames < s.lostFrames + 1) :
    processHandResult [] t s =
      (none, { s with lostFrames := s.lostFrames + 1,
                       lastHand := none, lastHandCenter := none }) := by
  simp only [processHandResult, List.isEmpty_nil, if_true]
  rw [if_neg]
  intro hc
  exact absurd hc.1 (Nat.not_le.mpr hwin)

/-- Within the persistence window, every empty tick reports the
persisted hand. -/
theorem emptyRun_within : ∀ (k : ℕ) (s : HandTracker) (h : Hand),
    s.lastValidHand = some h → s.lostFrames + k ≤ maxLostFrames →
    (runHT s (List.replicate k ([], 0))).1 = List.replicate k (some h) ∧
    (runHT s (List.replicate k ([], 0))).2.lostFrames = s.lostFrames + k ∧
    (runHT s (List.replicate k ([], 0))).2.lastValidHand = some h ∧
    (runHT s (List.replicate k ([], 0))).2.lastValidCenter = s.lastValidCenter := by
  intro k
  induction k with
  | zero => intro s h hvalid _; exact ⟨rfl, rfl, hvalid, rfl⟩
  | succ n ih =>
    intro s h hvalid hwin
    rw [List.replicate_succ]
    simp only [runHT]
    rw [emptyTick_within 0 s h hvalid (by omega)]
    have ihs := ih { s with lostFrames := s.lostFrames + 1,
                             lastHand := some h, lastHandCenter := s.lastValidCenter }
      h hvalid (by simp only; omega)
    refine ⟨?_, ?_, ihs.2.2.1, ihs.2.2.2⟩
    · rw [List.replicate_succ]
      exact congrArg (some h :: ·) ihs.1
    · rw [ihs.2.1]
      simp only
      omega

/-- Outputs and final state of a run split over an appended tick
list. -/
theorem runHT_append (s : HandTracker) (l1 l2 : List (List Hand × ℚ)) :
    (runHT s (l1 ++ l2)).1 = (runHT s l1).1 ++ (runHT (runHT s l1).2 l2).1 ∧
    (runHT s (l1 ++ l2)).2 = (runHT (runHT s l1).2 l2).2 := by
  induction l1 generalizing s with
  | nil => exact ⟨rfl, rfl⟩
  | cons p rest ih =>
    obtain ⟨hs, t⟩ := p
    simp only [List.cons_append, runHT, List.append_eq]
    refine ⟨?_, (ih _).2⟩
    rw [(ih _).1]

/-- A one-tick run is a single `processHandResult` call. -/
theorem runHT_single (s : HandTracker) (hs : List Hand) (t : ℚ) :
    runHT s [(hs, t)] = ([(processHandResult hs t s).1], (processHandResult hs t s).2) := rfl

/-- C4 counterexample: after a valid detection followed by 9 empty
ticks (one past the persistence window), the persisted
`lastValidHand` is NOT cleared, contrary to the claim. -/
theorem C4_cex_persisted_not_cleared :
    (runHT htAfterH1 (List.replicate 9 ([], 0))).2.lastValidHand ≠ none := by
  rw [(emptyRun_keeps_valid 9 htAfterH1).1]
  have h1 : htAfterH1.lastValidHand = some H1 := by
    norm_num [htAfterH1, processHandResult, updateHandHistories, selectActiveHand,
      getHandCenter, stableIndices, pushHist, trackVelocity, initHT, H1, historyLength]
  rw [h1]
  simp

/-- C4 amended: after a valid detection, k ≤ 8 empty ticks each return
the persisted hand; the 9th returns none and clears only the
non-persisted `lastHand`/`lastHandCenter` (the persisted
`lastValidHand`/`lastValidCenter` are retained, not cleared); and any
successful detection resets `lostFrames` to 0 and persists the newly
selected hand. -/
theorem C4_persistence_amended :
    (∀ (s : HandTracker) (h : Hand) (k : ℕ),
      s.lostFrames = 0 → s.lastValidHand = some h → k ≤ maxLostFrames →
      (runHT s (List.replicate k ([], 0))).1 = List.replicate k (some h)) ∧
    (∀ (s : HandTracker) (h : Hand),
      s.lostFrames = 0 → s.lastValidHand = some h →
      (runHT s (List.replicate (maxLostFrames + 1) ([], 0))).1 =
        List.replicate maxLostFrames (some h) ++ [none] ∧
      (runHT s (List.replicate (maxLostFrames + 1) ([], 0))).2.lastHand = none ∧
      (runHT s (List.replicate (maxLostFrames + 1) ([], 0))).2.lastHandCenter = none ∧
      (runHT s (List.replicate (maxLostFrames + 1) ([], 0))).2.lastValidHand = some h ∧
      (runHT s (List.replicate (maxLostFrames + 1) ([], 0))).2.lastValidCenter =
        s.lastValidCenter) ∧
    (∀ (hands : List Hand) (t : ℚ) (s : HandTracker), hands ≠ [] →
      (processHandResult hands t s).2.lostFrames = 0 ∧
      (processHandResult hands t s).2.lastValidHand = (processHandResult hands t s).1) := by
  refine ⟨?_, ?_, ?_⟩
  · intro s h k h0 hvalid hk
    exact (emptyRun_within k s h hvalid (by omega)).1
  · intro s h h0 hvalid
    have hrep : List.replicate (maxLostFrames + 1) (([] : List Hand), (0 : ℚ)) =
        List.replicate maxLostFrames ([], 0) ++ [([], 0)] := by
      rw [← List.replicate_succ']
    have hwin := emptyRun_within maxLostFrames s h hvalid (by omega)
    have happ := runHT_append s (List.replicate maxLostFrames ([], 0)) [([], 0)]
    have hexp := emptyTick_expired 0 (runHT s (List.replicate maxLostFrames ([], 0))).2
      (by rw [hwin.2.1, h0]; omega)
    rw [hrep]
    refine ⟨?_, ?_, ?_, ?_, ?_⟩
    · rw [happ.1, hwin.1, runHT_single, hexp]
    · rw [happ.2, runHT_single, hexp]
    · rw [happ.2, runHT_single, hexp]
    · simp only [happ.2, runHT_single, hexp]
      exact hwin.2.2.1
    · simp only [happ.2, runHT_single, hexp]
      exact hwin.2.2.2
  · intro hands t s hne
    have hemp : hands.isEmpty = false := by
      cases hands with
      | nil => exact absurd rfl hne
      | cons a as => rfl
    have hlf : (selectActiveHand hands (hands.map getHandCenter)
        (updateHandHistories (hands.map getHandCenter)
          { s with lostFrames := 0 })).2.lostFrames = 0 := by
      simp only [selectActiveHand]
      split
      · rfl
      · rfl
    simp only [processHandResult, hemp, Bool.false_eq_true, if_false]
    exact ⟨hlf, trivial⟩

/-- C4 witness: the concrete scenario — one detection of `H1`, then 8
empty ticks all reporting `H1`. -/
theorem C4_witness :
    (runHT htAfterH1 (List.replicate 8 ([], 0))).1 = List.replicate 8 (some H1) :=
  C4_persistence_amended.1 htAfterH1 H1 8
    (by norm_num [htAfterH1, processHandResult, updateHandHistories, selectActiveHand,
      getHandCenter, stableIndices, pushHist, trackVelocity, initHT, H1, historyLength])
    (by norm_num [htAfterH1, processHandResult, updateHandHistories, selectActiveHand,
      getHandCenter, stableIndices, pushHist, trackVelocity, initHT, H1, historyLength])
    (by norm_num [maxLostFrames])

/-! ## Invariant lemmas (C9) -/

theorem addPosition_velocityHistory (y t : ℚ) (s : MotionDetector) :
    (addPosition y t s).velocityHistory = s.velocityHistory := rfl

theorem addPosition_positions_le (y t : ℚ) (s : MotionDetector)
    (h : s.positions.length ≤ maxPositions) :
    (addPosition y t s).positions.length ≤ maxPositions := by
  have heq : (addPosition y t s).positions =
      if maxPositions < (s.positions ++ [(smooth s.smoothedY y, t)]).length
      then (s.positions ++ [(smooth s.smoothedY y, t)]).drop 1
      else s.positions ++ [(smooth s.smoothedY y, t)] := rfl
  rw [heq]
  split <;> rename_i hc <;>
    simp only [List.length_drop, List.length_append, List.length_singleton] at hc ⊢ <;>
    omega

theorem getVelocity_positions (s : MotionDetector) :
    (getVelocity s).2.positions = s.positions := by
  simp only [getVelocity]
  split <;> rfl

theorem pushcap_le (vh : List ℚ) (x : ℚ) (cap : ℕ) (h : vh.length ≤ cap) :
    (if cap < (vh ++ [x]).length then (vh ++ [x]).drop 1 else vh ++ [x]).length ≤ cap := by
  split <;> rename_i hc <;>
    simp only [List.length_drop, List.length_append, List.length_singleton] at hc ⊢ <;>
    omega

theorem getVelocity_vh_le (s : MotionDetector)
    (h : s.velocityHistory.length ≤ maxVelocityHistory) :
    (getVelocity s).2.velocityHistory.length ≤ maxVelocityHistory := by
  simp only [getVelocity]
  split
  · exact h
  · exact pushcap_le s.velocityHistory _ maxVelocityHistory h

theorem stateSwitch_histories (v : ℚ) (d : MotionDetector) :
    (stateSwitch v d).2.positions = d.positions ∧
    (stateSwitch v d).2.velocityHistory = d.velocityHistory := by
  obtain ⟨pos, sm, ct, st, uf, pv, vh, cv, ry⟩ := d
  cases st <;> simp only [stateSwitch]
  · split <;> exact ⟨rfl, rfl⟩
  · split
    · split <;> exact ⟨rfl, rfl⟩
    · exact ⟨rfl, rfl⟩
  · split <;> exact ⟨rfl, rfl⟩

theorem preStep_positions (y t : ℚ) (s : MotionDetector) :
    (preStep y t s).positions = (getVelocity (addPosition y t s)).2.positions := by
  simp only [preStep]
  split <;> rfl

theorem preStep_velocityHistory (y t : ℚ) (s : MotionDetector) :
    (preStep y t s).velocityHistory = (getVelocity (addPosition y t s)).2.velocityHistory := by
  simp only [preStep]
  split <;> rfl

/-- Every MotionDetector operation keeps both histories within their
caps. -/
theorem applyMDOp_inv (op : MDOp) (s : MotionDetector)
    (h : s.positions.length ≤ maxPositions ∧
         s.velocityHistory.length ≤ maxVelocityHistory) :
    (applyMDOp op s).positions.length ≤ maxPositions ∧
    (applyMDOp op s).velocityHistory.length ≤ maxVelocityHistory := by
  cases op with
  | upd y t =>
    cases y with
    | none => exact h
    | some yv =>
      have hup : applyMDOp (.upd (some yv) t) s =
          (stateSwitch (getVelocity (addPosition yv t s)).1 (preStep yv t s)).2 := by
        show (update (some yv) t s).2 = _
        rw [update_some_eq]
      rw [hup]
      constructor
      · rw [(stateSwitch_histories _ _).1, preStep_positions, getVelocity_positions]
        exact addPosition_positions_le yv t s h.1
      · rw [(stateSwitch_histories _ _).2, preStep_velocityHistory]
        exact getVelocity_vh_le _ (by rw [addPosition_velocityHistory]; exact h.2)
  | doReset =>
    constructor
    · show ([] : List (ℚ × ℚ)).length ≤ maxPositions
      simp [maxPositions]
    · show ([] : List ℚ).length ≤ maxVelocityHistory
      simp [maxVelocityHistory]
  | addPos y t =>
    refine ⟨addPosition_positions_le y t s h.1, ?_⟩
    show (addPosition y t s).velocityHistory.length ≤ maxVelocityHistory
    rw [addPosition_velocityHistory]
    exact h.2
  | getVel =>
    refine ⟨?_, getVelocity_vh_le s h.2⟩
    show (getVelocity s).2.positions.length ≤ maxPositions
    rw [getVelocity_positions]
    exact h.1

theorem selectActiveHand_handHistories (hands : List Hand)
    (positions : List (Option Point)) (s : HandTracker) :
    (selectActiveHand hands positions s).2.handHistories = s.handHistories := by
  simp only [selectActiveHand]
  split <;> rfl

theorem selectActiveHand_index (hands : List Hand) (positions : List (Option Point))
    (s : HandTracker)
    (h : s.activeHandIndex = -1 ∨ s.activeHandIndex = 0 ∨ s.activeHandIndex = 1) :
    (selectActiveHand hands positions s).2.activeHandIndex = -1 ∨
    (selectActiveHand hands positions s).2.activeHandIndex = 0 ∨
    (selectActiveHand hands positions s).2.activeHandIndex = 1 := by
  simp only [selectActiveHand]
  split
  · exact h
  · dsimp only
    split_ifs <;>
      first
        | (right; left; rfl)
        | (right; right; rfl)
        | exact h

/-- Any detection at all resets `lostFrames` to 0. -/
theorem processHandResult_lostFrames (hands : List Hand) (t : ℚ) (s : HandTracker)
    (hne : hands ≠ []) : (processHandResult hands t s).2.lostFrames = 0 := by
  have hemp : hands.isEmpty = false := by
    cases hands with
    | nil => exact absurd rfl hne
    | cons a as => rfl
  have hlf : (selectActiveHand hands (hands.map getHandCenter)
      (updateHandHistories (hands.map getHandCenter)
        { s with lostFrames := 0 })).2.lostFrames = 0 := by
    simp only [selectActiveHand]
    split <;> rfl
  simp only [processHandResult, hemp, Bool.false_eq_true, if_false]
  exact hlf

/-- Every HandTracker tick keeps exactly two slots and a legal active
index. -/
theorem processHandResult_inv (hands : List Hand) (t : ℚ) (s : HandTracker)
    (h : s.handHistories.length = 2 ∧
         (s.activeHandIndex = -1 ∨ s.activeHandIndex = 0 ∨ s.activeHandIndex = 1)) :
    (processHandResult hands t s).2.handHistories.length = 2 ∧
    ((processHandResult hands t s).2.activeHandIndex = -1 ∨
     (processHandResult hands t s).2.activeHandIndex = 0 ∨
     (processHandResult hands t s).2.activeHandIndex = 1) := by
  cases hands with
  | nil =>
    simp only [processHandResult, List.isEmpty_nil, if_true]
    split
    · exact h
    · exact h
  | cons a as =>
    simp only [processHandResult, List.isEmpty_cons, Bool.false_eq_true, if_false]
    constructor
    · show (selectActiveHand (a :: as) ((a :: as).map getHandCenter)
          (updateHandHistories ((a :: as).map getHandCenter)
            { s with lostFrames := 0 })).2.handHistories.length = 2
      rw [selectActiveHand_handHistories]
      rfl
    · exact selectActiveHand_index _ _ _ h.2

/-- The conditional eviction on a full history drops exactly the
oldest entry. -/
theorem pushcap_full (vh : List ℚ) (x : ℚ) (cap : ℕ) (hcap : 0 < cap)
    (hlen : vh.length = cap) :
    (if cap < (vh ++ [x]).length then (vh ++ [x]).drop 1 else vh ++ [x]) =
      vh.drop 1 ++ [x] := by
  have hc : cap < (vh ++ [x]).length := by
    simp only [List.length_append, List.length_singleton, hlen]
    omega
  rw [if_pos hc, List.drop_append_of_le_length]
  omega

/-- C9: reachable-state invariants — the detector's position history
(cap 10) and velocity history (cap 5) never exceed their caps, the
tracker always has exactly two hand-history slots and an active index
in {-1, 0, 1}, any successful detection resets `lostFrames` to 0, and
a full history evicts its oldest element first (FIFO). -/
theorem C9_invariants :
    (∀ ops : List MDOp,
      (runMDOps ops).positions.length ≤ maxPositions ∧
      (runMDOps ops).velocityHistory.length ≤ maxVelocityHistory) ∧
    (∀ ops : List (List Hand × ℚ),
      (runHTOps ops).handHistories.length = 2 ∧
      ((runHTOps ops).activeHandIndex = -1 ∨ (runHTOps ops).activeHandIndex = 0 ∨
       (runHTOps ops).activeHandIndex = 1)) ∧
    (∀ (hands : List Hand) (t : ℚ) (s : HandTracker), hands ≠ [] →
      (processHandResult hands t s).2.lostFrames = 0) ∧
    (∀ (y t : ℚ) (s : MotionDetector), s.positions.length = maxPositions →
      (addPosition y t s).positions = s.positions.drop 1 ++ [(smooth s.smoothedY y, t)]) ∧
    (∀ s : MotionDetector, s.velocityHistory.length = maxVelocityHistory →
      2 ≤ s.positions.length →
      (getVelocity s).2.velocityHistory =
        s.velocityHistory.drop 1 ++ [(getVelocity s).1]) := by
  refine ⟨?_, ?_, processHandResult_lostFrames, ?_, ?_⟩
  · intro ops
    have key : ∀ (l : List MDOp) (s : MotionDetector),
        s.positions.length ≤ maxPositions ∧
          s.velocityHistory.length ≤ maxVelocityHistory →
        (l.foldl (fun s op => applyMDOp op s) s).positions.length ≤ maxPositions ∧
        (l.foldl (fun s op => applyMDOp op s) s).velocityHistory.length ≤
          maxVelocityHistory := by
      intro l
      induction l with
      | nil => intro s hs; exact hs
      | cons op rest ih => intro s hs; exact ih _ (applyMDOp_inv op s hs)
    exact key ops initMD ⟨by decide, by decide⟩
  · intro ops
    have key : ∀ (l : List (List Hand × ℚ)) (s : HandTracker),
        s.handHistories.length = 2 ∧
          (s.activeHandIndex = -1 ∨ s.activeHandIndex = 0 ∨ s.activeHandIndex = 1) →
        (l.foldl (fun s op => (processHandResult op.1 op.2 s).2) s).handHistories.length = 2 ∧
        ((l.foldl (fun s op => (processHandResult op.1 op.2 s).2) s).activeHandIndex = -1 ∨
         (l.foldl (fun s op => (processHandResult op.1 op.2 s).2) s).activeHandIndex = 0 ∨
         (l.foldl (fun s op => (processHandResult op.1 op.2 s).2) s).activeHandIndex = 1) := by
      intro l
      induction l with
      | nil => intro s hs; exact hs
      | cons op rest ih => intro s hs; exact ih _ (processHandResult_inv op.1 op.2 s hs)
    exact key ops initHT ⟨by decide, by decide⟩
  · intro y t s hlen
    have heq : (addPosition y t s).positions =
        if maxPositions < (s.positions ++ [(smooth s.smoothedY y, t)]).length
        then (s.positions ++ [(smooth s.smoothedY y, t)]).drop 1
        else s.positions ++ [(smooth s.smoothedY y, t)] := rfl
    rw [heq]
    have hc : maxPositions < (s.positions ++ [(smooth s.smoothedY y, t)]).length := by
      simp only [List.length_append, List.length_singleton, hlen]
      omega
    rw [if_pos hc, List.drop_append_of_le_length]
    rw [hlen]
    simp [maxPositions]
  · intro s hlen hpos
    have hnot : ¬ s.positions.length < 2 := by omega
    simp only [getVelocity, if_neg hnot]
    exact pushcap_full s.velocityHistory _ maxVelocityHistory
      (by simp [maxVelocityHistory]) hlen

/-- C9 witness: the invariants instantiated on concrete operation
sequences and concrete full histories. -/
theorem C9_witness :
    (runMDOps [.upd (some 5) 0, .addPos 6 1, .getVel, .doReset]).positions.length ≤
      maxPositions ∧
    (runHTOps [([H1], 0), ([], 1)]).handHistories.length = 2 ∧
    (processHandResult [H1] 0 initHT).2.lostFrames = 0 ∧
    (addPosition 7 20 mdFull).positions =
      mdFull.positions.drop 1 ++ [(smooth mdFull.smoothedY 7, 20)] ∧
    (getVelocity mdVh5).2.velocityHistory =
      mdVh5.velocityHistory.drop 1 ++ [(getVelocity mdVh5).1] :=
  ⟨(C9_invariants.1 [.upd (some 5) 0, .addPos 6 1, .getVel, .doReset]).1,
   (C9_invariants.2.1 [([H1], 0), ([], 1)]).1,
   C9_invariants.2.2.1 [H1] 0 initHT (by simp),
   C9_invariants.2.2.2.1 7 20 mdFull (by decide),
   C9_invariants.2.2.2.2 mdVh5 (by decide) (by decide)⟩

end FappyBird
